import Mathlib

/-!
Verification of the core of the pingtower-flow dashboard: the telemetry
aggregation engine (src/utils/stats.ts), the ping-interval validation
(src/flow/nodes/types.ts), the entity store (src/state/store.ts) and the
dashboard fetch orchestration (src/pages/DashboardPage.tsx), shallowly
embedded in Lean.

Modelling conventions:
- JavaScript numbers are modelled as rationals; a field that is null,
  undefined or non-finite is modelled as `Option.none` (the source's
  `asNumber` collapses null/undefined/non-finite to null before any use).
- ISO-8601 timestamp strings are modelled by their epoch-millisecond value
  (an integer); the source only ever uses them through
  `new Date(ts).getTime()`.
- `Math.round` and `Number.prototype.toFixed` round to the nearest value
  with ties toward positive infinity, which for `toFixed` is the
  "pick the larger n" rule of the ECMAScript specification.
- Stateful store code becomes explicit state passing; `setTimeout` timers
  become entries of an association list keyed by node id (the source keeps
  them in a `Map` keyed by node id), and firing a timer is an explicit step.
-/

namespace PingTower

/-- JS `Math.round`: nearest integer, ties toward positive infinity. -/
def jsRound (q : ℚ) : ℤ := ⌊q + 1/2⌋

/-- Source `toFixedNumber` (stats.ts): `Number(value.toFixed(digits))`,
rounding to `digits` decimal places, ties toward the larger value. -/
def toFixedNumber (q : ℚ) (digits : ℕ) : ℚ :=
  (⌊q * (10 : ℚ) ^ digits + 1/2⌋ : ℚ) / (10 : ℚ) ^ digits

/-- Traffic-light classification of one check record. -/
inductive TrafficLight
  | green
  | orange
  | red
deriving DecidableEq, Inhabited, Fintype

/-- The `dns_resolved` field: `number | boolean | null` in the source. -/
inductive DnsVal
  | boolVal (b : Bool)
  | numVal (q : ℚ)
  | nullVal
deriving DecidableEq, Inhabited

/-- One health-check record (`LogRecord` in stats.ts). Numeric fields are
`Option ℚ`: `none` stands for null/undefined/non-finite. -/
structure LogRecord where
  timestamp : ℤ
  traffic_light : TrafficLight
  http_status : Option ℤ
  latency_ms : Option ℚ
  ping_ms : Option ℚ
  ssl_days_left : Option ℚ
  dns_resolved : DnsVal
  redirects : Option ℤ
  url : Option String
deriving DecidableEq, Inhabited

/-- The two numeric fields `buildTimeseries` and the sparklines read. -/
inductive NumField
  | latency_ms
  | ping_ms
deriving DecidableEq

/-- Dynamic field access `log[field]` for the two chartable fields. -/
def LogRecord.numField (l : LogRecord) : NumField → Option ℚ
  | .latency_ms => l.latency_ms
  | .ping_ms => l.ping_ms

/-- Success predicate of `calcUptime` (stats.ts lines 74-77): the status is
present and strictly below 400. -/
def uptimeSuccess (l : LogRecord) : Bool :=
  match l.http_status with
  | none => false
  | some s => s < 400

/-- `calcUptime` (stats.ts lines 71-80): share of successful records over
all records, `Math.round`ed; null on empty input. -/
def calcUptime (logs : List LogRecord) : Option ℤ :=
  if logs.length = 0 then none
  else
    some (jsRound ((((logs.filter uptimeSuccess).length : ℚ) / (logs.length : ℚ)) * 100))

/-- Success predicate of `calcDnsSuccessRate` (stats.ts lines 96-100):
booleans count by their value, numbers count when equal to 1, null fails. -/
def dnsSuccess (l : LogRecord) : Bool :=
  match l.dns_resolved with
  | .nullVal => false
  | .boolVal b => b
  | .numVal q => q == 1

/-- `calcDnsSuccessRate` (stats.ts lines 93-103): share of DNS-successful
records over all records, to one decimal place; null on empty input. -/
def calcDnsSuccessRate (logs : List LogRecord) : Option ℚ :=
  if logs.length = 0 then none
  else
    some (toFixedNumber ((((logs.filter dnsSuccess).length : ℚ) / (logs.length : ℚ)) * 100) 1)

/-- Counts of green/orange/red records (`TrafficLightAggregate`). -/
structure TrafficLightAggregate where
  green : ℕ
  orange : ℕ
  red : ℕ
deriving DecidableEq, Inhabited

/-- The all-zero aggregate, the initial accumulator of the merges. -/
def zeroTrafficLight : TrafficLightAggregate := ⟨0, 0, 0⟩

/-- Element-wise sum of two traffic-light aggregates (the body of the
`reduce` in `mergeTrafficLightAggregates`, stats.ts lines 119-124). -/
def addTrafficLight (a b : TrafficLightAggregate) : TrafficLightAggregate :=
  ⟨a.green + b.green, a.orange + b.orange, a.red + b.red⟩

/-- One server-precomputed rollup bucket (`AggregatedBucket` in stats.ts). -/
structure AggregatedBucket where
  timestamp : ℤ
  count : ℕ
  latency_avg : Option ℚ
  ping_avg : Option ℚ
  ssl_days_left_avg : Option ℚ
  dns_success_rate : Option ℚ
  traffic_light : TrafficLightAggregate
deriving DecidableEq, Inhabited

/-- `mergeTrafficLightAggregates` (stats.ts lines 117-127): element-wise sum
of the buckets' traffic-light counts, folded left from the zero aggregate. -/
def mergeTrafficLightAggregates (buckets : List AggregatedBucket) : TrafficLightAggregate :=
  buckets.foldl (fun acc b => addTrafficLight acc b.traffic_light) zeroTrafficLight

/-- Summary of several buckets (`AggregatedSummary` in stats.ts). -/
structure AggregatedSummary where
  latency_avg : Option ℚ
  ping_avg : Option ℚ
  ssl_days_left_avg : Option ℚ
  dns_success_rate : Option ℚ
  traffic_light : TrafficLightAggregate
deriving DecidableEq, Inhabited

/-- Accumulator of the `reduce` inside `summarizeAggregatedBuckets`
(stats.ts lines 245-266). -/
structure SummarizeTotals where
  count : ℕ
  latency : ℚ
  ping : ℚ
  ssl : ℚ
  dns : ℚ
  traffic : TrafficLightAggregate
deriving DecidableEq

/-- One step of that `reduce`: add the bucket's count, its count-weighted
metrics (a null metric contributes 0), and its traffic-light counts. -/
def summarizeStep (acc : SummarizeTotals) (b : AggregatedBucket) : SummarizeTotals :=
  { count := acc.count + b.count
    latency := acc.latency + (b.latency_avg.getD 0) * (b.count : ℚ)
    ping := acc.ping + (b.ping_avg.getD 0) * (b.count : ℚ)
    ssl := acc.ssl + (b.ssl_days_left_avg.getD 0) * (b.count : ℚ)
    dns := acc.dns + (b.dns_success_rate.getD 0) * (b.count : ℚ)
    traffic := addTrafficLight acc.traffic b.traffic_light }

/-- `summarizeAggregatedBuckets` (stats.ts lines 232-277): count-weighted
merge of the buckets; every metric divides by `Math.max(1, totalCount)` and
is null exactly when the total count is 0 (or the list is empty). -/
def summarizeAggregatedBuckets (buckets : List AggregatedBucket) : AggregatedSummary :=
  if buckets.length = 0 then
    ⟨none, none, none, none, ⟨0, 0, 0⟩⟩
  else
    let totals := buckets.foldl summarizeStep ⟨0, 0, 0, 0, 0, ⟨0, 0, 0⟩⟩
    let safeCount : ℚ := ((max 1 totals.count : ℕ) : ℚ)
    { latency_avg := if totals.count = 0 then none else some (toFixedNumber (totals.latency / safeCount) 2)
      ping_avg := if totals.count = 0 then none else some (toFixedNumber (totals.ping / safeCount) 2)
      ssl_days_left_avg := if totals.count = 0 then none else some (toFixedNumber (totals.ssl / safeCount) 2)
      dns_success_rate := if totals.count = 0 then none else some (toFixedNumber (totals.dns / safeCount) 2)
      traffic_light := totals.traffic }

/-- One chart point produced by `buildTimeseries` (`ChartPoint<LogRecord>`). -/
structure ChartPoint where
  timestamp : ℤ
  value : ℚ
  meta : LogRecord
deriving DecidableEq

/-- The `for` loop of `buildTimeseries` (stats.ts lines 169-181): cut the
list into consecutive slices `slice(i, i + k)`; every call site passes
`k = Math.max(1, ...) ≥ 1`. -/
def chunksOf (k : ℕ) : List LogRecord → List (List LogRecord)
  | [] => []
  | a :: as => (a :: as.take (k - 1)) :: chunksOf k (as.drop (k - 1))
termination_by l => l.length
decreasing_by
  simp only [List.length_cons, List.length_drop]
  omega

/-- One bucket's emitted point (stats.ts lines 170-180): mean of the present
values (already guaranteed present by the filter upstream, so `?? 0` never
fires), rounded to 2 decimals, timestamped at the bucket's last record. -/
def bucketPoint (f : NumField) (bucket : List LogRecord) : ChartPoint :=
  let avgValue := (bucket.map (fun l => (l.numField f).getD 0)).sum / (bucket.length : ℚ)
  let referenceLog := bucket.getLastD default
  ⟨referenceLog.timestamp, toFixedNumber avgValue 2, referenceLog⟩

/-- The `safeLogs` filter of `buildTimeseries` (stats.ts line 164): keep the
records with a present finite value of the requested field. -/
def filteredSamples (logs : List LogRecord) (f : NumField) : List LogRecord :=
  logs.filter (fun l => (l.numField f).isSome)

/-- `buildTimeseries` (stats.ts lines 156-184). `Math.ceil(N / maxPoints)`
for `maxPoints ≥ 1` equals `(N + maxPoints - 1) / maxPoints` in ℕ; the code
calls it with the default 3000 only. -/
def buildTimeseries (logs : List LogRecord) (f : NumField) (maxPoints : ℕ) : List ChartPoint :=
  let safeLogs := filteredSamples logs f
  if safeLogs.length = 0 then []
  else
    let bucketSize := max 1 ((safeLogs.length + maxPoints - 1) / maxPoints)
    (chunksOf bucketSize safeLogs).map (bucketPoint f)

/-! Flow node types (src/flow/nodes/types.ts). -/

/-- `DEFAULT_PING_INTERVAL` (types.ts). -/
def DEFAULT_PING_INTERVAL : ℤ := 30

/-- `MIN_PING_INTERVAL` (types.ts). -/
def MIN_PING_INTERVAL : ℤ := 1

/-- `MAX_PING_INTERVAL` (types.ts). -/
def MAX_PING_INTERVAL : ℤ := 3600

/-- `normalizePingInterval` (types.ts lines 30-35). The argument models the
result of `Number(value.trim())` on the user's string: `none` when that is
NaN/non-finite, `some q` for a finite numeric value `q`. The source rejects
(returns undefined for) non-finite and non-positive input, and otherwise
rounds and clamps into `[MIN_PING_INTERVAL, MAX_PING_INTERVAL]`. -/
def normalizePingInterval (numeric : Option ℚ) : Option ℤ :=
  match numeric with
  | none => none
  | some q =>
    if q ≤ 0 then none
    else some (min MAX_PING_INTERVAL (max MIN_PING_INTERVAL (jsRound q)))

/-- Node lifecycle status (`NodeStatus`). -/
inductive NodeStatus
  | idle
  | running
  | succeeded
  | failed
deriving DecidableEq, Inhabited

/-- One metadata row (`NodeMetadataEntry`). -/
structure MetaEntry where
  label : String
  value : String
deriving DecidableEq, Inhabited

/-- `BaseNodeData` (types.ts): all fields optional in the source. -/
structure BaseNodeData where
  title : Option String
  description : Option String
  emoji : Option String
  status : Option NodeStatus
  metadata : Option (List MetaEntry)
  ping_interval : Option ℤ
deriving DecidableEq, Inhabited

/-- `buildWebsiteMetadata` (types.ts lines 37-45). -/
def buildWebsiteMetadata (data : BaseNodeData) : List MetaEntry :=
  let interval := data.ping_interval.getD DEFAULT_PING_INTERVAL
  [⟨"URL", data.description.getD "—"⟩,
   ⟨"Название", data.title.getD "Без имени"⟩,
   ⟨"Интервал", toString interval ++ " сек"⟩]

/-- A react-flow node as the store uses it (id, type tag, data); the screen
position plays no role in any claim and is omitted. -/
structure FlowNode where
  id : String
  type : String
  data : BaseNodeData
deriving DecidableEq, Inhabited

/-! Entity store (src/state/store.ts). -/

/-- What a pending `setTimeout` of `updateNodeData` carries: its deadline
(500 ms after the edit) and the captured `updatedNode` snapshot. -/
structure PendingSync where
  fireAt : ℕ
  node : FlowNode
deriving DecidableEq, Inhabited

/-- The module-level `websiteSyncTimers` map, keyed by node id, as an
association list. -/
abbrev SyncTimers : Type := List (String × PendingSync)

/-- `cancelWebsiteSyncTimer` (store.ts lines 18-24): `clearTimeout` plus
`Map.delete` of the node's entry. -/
def cancelWebsiteSyncTimer (nodeId : String) (timers : SyncTimers) : SyncTimers :=
  timers.filter (fun e => e.1 ≠ nodeId)

/-- `Map.set` after `clearTimeout` of the existing entry (store.ts lines
268-278): at most one timer per node id survives. -/
def setWebsiteSyncTimer (nodeId : String) (p : PendingSync) (timers : SyncTimers) : SyncTimers :=
  cancelWebsiteSyncTimer nodeId timers ++ [(nodeId, p)]

/-- `websiteSyncTimers.get nodeId`. -/
def lookupTimer (timers : SyncTimers) (nodeId : String) : Option PendingSync :=
  (timers.find? (fun e => e.1 == nodeId)).map (fun e => e.2)

/-- Store state: the node list, the dirty flag, the timer map, and a log of
the network writes issued by fired debounce timers (each fired timer calls
`syncWebsiteNode(updatedNode)`, which issues one create/update request
carrying that node). -/
structure StoreState where
  nodes : List FlowNode
  isDirty : Bool
  websiteSyncTimers : SyncTimers
  syncLog : List FlowNode
deriving DecidableEq, Inhabited

/-- A `Partial<BaseNodeData>` patch: `some` marks a key present in the
object passed to `updateNodeData`. -/
structure NodePatch where
  title : Option String
  description : Option String
  emoji : Option String
  status : Option NodeStatus
  metadata : Option (List MetaEntry)
  ping_interval : Option ℤ
deriving DecidableEq, Inhabited

/-- Object spread `{...node.data, ...data}`: keys present in the patch win. -/
def applyPatch (d : BaseNodeData) (p : NodePatch) : BaseNodeData :=
  { title := p.title <|> d.title
    description := p.description <|> d.description
    emoji := p.emoji <|> d.emoji
    status := p.status <|> d.status
    metadata := p.metadata <|> d.metadata
    ping_interval := p.ping_interval <|> d.ping_interval }

/-- The guard `"title" in data || "description" in data ||
"ping_interval" in data` (store.ts lines 263-265). -/
def touchesSyncedField (p : NodePatch) : Bool :=
  p.title.isSome || p.description.isSome || p.ping_interval.isSome

/-- The per-node update of `updateNodeData` (store.ts lines 247-258):
spread the patch, then rebuild the metadata for website nodes. -/
def updateNodeFn (ty : String) (d : BaseNodeData) (p : NodePatch) : BaseNodeData :=
  let nextData := applyPatch d p
  if ty = "website" then { nextData with metadata := some (buildWebsiteMetadata nextData) }
  else nextData

/-- `updateNodeData` (store.ts lines 240-280) at wall-clock time `now`:
update every node whose id matches, mark the store dirty, and — when the
updated node is a website node and the patch touches a synced field —
cancel any pending timer of this node and start a fresh one that fires at
`now + 500` carrying the just-updated node. `updatedNode` is the variable
of the same name: the last matching node, after the update. -/
def updateNodeData (now : ℕ) (id : String) (p : NodePatch) (s : StoreState) : StoreState :=
  let updatedNodes := s.nodes.map (fun n =>
    if n.id = id then { n with data := updateNodeFn n.type n.data p } else n)
  let updatedNode := ((s.nodes.filter (fun n => n.id = id)).getLast?).map
    (fun n => { n with data := updateNodeFn n.type n.data p })
  match updatedNode with
  | none => { s with nodes := updatedNodes, isDirty := true }
  | some un =>
    if un.type = "website" ∧ touchesSyncedField p then
      { s with nodes := updatedNodes, isDirty := true,
               websiteSyncTimers := setWebsiteSyncTimer un.id ⟨now + 500, un⟩ s.websiteSyncTimers }
    else
      { s with nodes := updatedNodes, isDirty := true }

/-- The event loop delivering every timer whose deadline has passed by time
`now`: each fired timer performs its `syncWebsiteNode(updatedNode)` network
write (recorded in `syncLog`) and deletes its map entry (store.ts lines
273-276). -/
def fireDueTimers (now : ℕ) (s : StoreState) : StoreState :=
  let due := s.websiteSyncTimers.filter (fun e => e.2.fireAt ≤ now)
  { s with syncLog := s.syncLog ++ due.map (fun e => e.2.node),
           websiteSyncTimers := s.websiteSyncTimers.filter (fun e => ¬ e.2.fireAt ≤ now) }

/-- An edit arriving at time `t`: the single-threaded event loop first runs
every timer already due, then runs `updateNodeData`. -/
def processEdit (s : StoreState) (t : ℕ) (id : String) (p : NodePatch) : StoreState :=
  updateNodeData t id p (fireDueTimers t s)

/-- Three edits to the same node at times `t1 ≤ t2 ≤ t3` — the burst
scenario of the debounce claim. -/
def burst3 (s : StoreState) (id : String) (p1 p2 p3 : NodePatch) (t1 t2 t3 : ℕ) : StoreState :=
  processEdit (processEdit (processEdit s t1 id p1) t2 id p2) t3 id p3

/-- No pending debounce write exists for this node id: no timer entry is
keyed by it and none carries a node with this id. -/
def noTimerFor (id : String) (timers : SyncTimers) : Prop :=
  ∀ e ∈ timers, e.1 ≠ id ∧ e.2.node.id ≠ id

/-- Exactly one pending debounce write exists for this node id, with
deadline `d` and snapshot `un`; every other entry belongs to other nodes. -/
def singleTimerFor (id : String) (d : ℕ) (un : FlowNode) (timers : SyncTimers) : Prop :=
  un.id = id ∧ ∃ pre post, timers = pre ++ (id, PendingSync.mk d un) :: post ∧
    noTimerFor id pre ∧ noTimerFor id post

/-- Outcome of the backend `deleteSite` call as `deleteSiteNode` can see
it: resolved, rejected because the site is unknown, or rejected by a
transport failure. -/
inductive DeleteOutcome
  | success
  | notFound
  | transportError
deriving DecidableEq

/-- `deleteSiteNode` (store.ts lines 218-230): try the backend delete; any
rejection is caught and only logged with `console.warn` (the returned flag
records whether that happened — the store itself has no error field; no
blocking error can be surfaced from here); the `finally` block always
cancels the node's debounce timer and removes the node locally. -/
def deleteSiteNode (outcome : DeleteOutcome) (nodeId : String) (s : StoreState) :
    StoreState × Bool :=
  let warned := match outcome with
    | .success => false
    | .notFound => true
    | .transportError => true
  ({ s with websiteSyncTimers := cancelWebsiteSyncTimer nodeId s.websiteSyncTimers,
            nodes := s.nodes.filter (fun n => n.id ≠ nodeId),
            isDirty := true },
   warned)

/-! Dashboard fetch orchestration (src/pages/DashboardPage.tsx). -/

/-- Response of GET `/logs/aggregated` (`AggregatedDashboardResponse`). -/
structure AggregatedDashboardResponse where
  summary : AggregatedSummary
  buckets : List AggregatedBucket
deriving DecidableEq, Inhabited

/-- The view state touched by `fetchOverviewData` and `fetchSiteData`. -/
structure ViewState where
  overview : Option AggregatedDashboardResponse
  siteAggregate : Option AggregatedDashboardResponse
  logs : List LogRecord
  overviewError : Option String
  error : Option String
  lastUpdated : Option ℤ
  isOverviewLoading : Bool
  isSiteLoading : Bool
deriving DecidableEq, Inhabited

/-- What the awaited axios call can deliver: a payload, a `CanceledError`,
or any other failure. -/
inductive FetchOutcome (α : Type)
  | ok (payload : α)
  | canceledError
  | otherError
deriving DecidableEq

/-- The `AbortSignal` as the fetch callbacks read it at response time:
`none` models a call made without a signal (the auto-refresh ticks and the
manual refresh), `some b` a signal whose `aborted` flag is `b`. -/
def signalAborted (signal : Option Bool) : Bool :=
  signal.getD false

/-- Completion of `fetchOverviewData` (DashboardPage.tsx lines 166-194)
from the moment its awaited response settles: the success branch returns
before any state write when `signal?.aborted`; the catch branch swallows
`CanceledError` and aborted-signal failures and otherwise records the
overview error; the `finally` clears the loading flag unless aborted. -/
def fetchOverviewData (signal : Option Bool)
    (outcome : FetchOutcome AggregatedDashboardResponse) (s : ViewState) : ViewState :=
  let aborted := signalAborted signal
  let afterTry :=
    match outcome with
    | .ok payload =>
      if aborted then s else { s with overview := some payload, overviewError := none }
    | .canceledError => s
    | .otherError =>
      if aborted then s else { s with overviewError := some "Не удалось загрузить общую статистику" }
  if aborted then afterTry else { afterTry with isOverviewLoading := false }

/-- Completion of `fetchSiteData` (DashboardPage.tsx lines 196-247) for an
issued request (a selected site exists): the payload carries the aggregate
response and the raw log list awaited by `Promise.all`; the same abort
checks guard every state write, including `lastUpdated := new Date()`. -/
def fetchSiteData (signal : Option Bool)
    (outcome : FetchOutcome (AggregatedDashboardResponse × List LogRecord))
    (now : ℤ) (s : ViewState) : ViewState :=
  let aborted := signalAborted signal
  let afterTry :=
    match outcome with
    | .ok payload =>
      if aborted then s
      else { s with siteAggregate := some payload.1, logs := payload.2,
                    error := none, lastUpdated := some now }
    | .canceledError => s
    | .otherError =>
      if aborted then s else { s with error := some "Не удалось загрузить данные сайта" }
  if aborted then afterTry else { afterTry with isSiteLoading := false }

/-- One auto-refresh tick (DashboardPage.tsx lines 261-268): it re-invokes
`fetchOverviewData()` and `fetchSiteData()` with no abort signal, so its
completions run the very same suppression checks with `signal = none`. -/
def autoRefreshTick (o1 : FetchOutcome AggregatedDashboardResponse)
    (o2 : FetchOutcome (AggregatedDashboardResponse × List LogRecord))
    (now : ℤ) (s : ViewState) : ViewState :=
  fetchSiteData none o2 now (fetchOverviewData none o1 s)

/-! Traffic-light filter (DashboardPage.tsx lines 130 and 417-430). -/

/-- The `Set<TrafficLight>` held in `trafficFilter` state, as a membership
triple. -/
structure TrafficFilterSet where
  green : Bool
  orange : Bool
  red : Bool
deriving DecidableEq, Fintype

/-- Set membership `next.has(traffic)`. -/
def TrafficFilterSet.has (s : TrafficFilterSet) : TrafficLight → Bool
  | .green => s.green
  | .orange => s.orange
  | .red => s.red

/-- Set removal `next.delete(traffic)`. -/
def TrafficFilterSet.del (s : TrafficFilterSet) : TrafficLight → TrafficFilterSet
  | .green => { s with green := false }
  | .orange => { s with orange := false }
  | .red => { s with red := false }

/-- Set insertion `next.add(traffic)`. -/
def TrafficFilterSet.add (s : TrafficFilterSet) : TrafficLight → TrafficFilterSet
  | .green => { s with green := true }
  | .orange => { s with orange := true }
  | .red => { s with red := true }

/-- `next.size`. -/
def TrafficFilterSet.size (s : TrafficFilterSet) : ℕ :=
  (if s.green then 1 else 0) + (if s.orange then 1 else 0) + (if s.red then 1 else 0)

/-- `new Set(TRAFFIC_OPTIONS)`: the full set, also the initial state. -/
def fullTrafficFilter : TrafficFilterSet := ⟨true, true, true⟩

/-- `handleToggleTraffic` (DashboardPage.tsx lines 417-430): toggle the
color; when deleting it empties the set, reset to the full set instead. -/
def handleToggleTraffic (traffic : TrafficLight) (prev : TrafficFilterSet) : TrafficFilterSet :=
  if prev.has traffic then
    let next := prev.del traffic
    if next.size = 0 then fullTrafficFilter else next
  else prev.add traffic

/-! Claim-side abbreviations and concrete sample inputs. -/

/-- Total check count across a bucket list, `sum(bucket.count)`. -/
def totalCount (bs : List AggregatedBucket) : ℕ :=
  (bs.map fun b => b.count).sum

/-- Count-weighted sum of one metric across a bucket list,
`sum(bucket.metric * bucket.count)` with null contributing 0. -/
def weightedSum (bs : List AggregatedBucket) (f : AggregatedBucket → Option ℚ) : ℚ :=
  (bs.map fun b => (f b).getD 0 * (b.count : ℚ)).sum

/-- Sample record: status 399, all numeric fields present. -/
def rec399 : LogRecord :=
  ⟨0, .green, some 399, some 10, some 5, some 100, .boolVal true, some 0, none⟩

/-- Sample record: status 400. -/
def rec400 : LogRecord :=
  ⟨60000, .red, some 400, some 20, none, none, .numVal 1, none, none⟩

/-- Sample record with absent status and absent DNS result. -/
def recNoStatus : LogRecord :=
  ⟨120000, .orange, none, none, some 7, none, .nullVal, none, some "https://a.example"⟩

/-- A bucket with zero count but a nonzero green tally: a value of the
code's `AggregatedBucket` type violating the documented invariant that the
traffic-light counts sum to at most `count`. -/
def zeroCountBucket : AggregatedBucket :=
  ⟨0, 0, none, none, none, none, ⟨1, 0, 0⟩⟩

/-- Sample bucket holding one check. -/
def bucketA : AggregatedBucket :=
  ⟨0, 1, some 100, some 50, some 30, some 99, ⟨1, 0, 0⟩⟩

/-- Sample bucket holding three checks, with a null SSL metric. -/
def bucketB : AggregatedBucket :=
  ⟨60000, 3, some 0, some 10, none, some 100, ⟨2, 1, 0⟩⟩

/-- Sample website node of the store. -/
def websiteNodeSample : FlowNode :=
  ⟨"1", "website",
   ⟨some "Site", some "https://a.example", some "🌐", some .idle, none, some 30⟩⟩

/-- Sample store: the one website node, no pending timers, no writes. -/
def storeSample : StoreState :=
  ⟨[websiteNodeSample], false, [], []⟩

/-- Patch editing only the title. -/
def patchTitle : NodePatch := ⟨some "S1", none, none, none, none, none⟩

/-- Patch editing only the url. -/
def patchUrl : NodePatch := ⟨none, some "https://b.example", none, none, none, none⟩

/-- Patch editing only the ping interval. -/
def patchInterval : NodePatch := ⟨none, none, none, none, none, some 60⟩

/-! Helper lemmas. -/

theorem mem_of_getLast?_eq {α : Type} {l : List α} {a : α} (h : l.getLast? = some a) : a ∈ l := by
  obtain ⟨hne, rfl⟩ := List.mem_getLast?_eq_getLast (Option.mem_def.mpr h)
  exact List.getLast_mem hne

/-- The claim-side success predicate of uptime agrees with the code's. -/
theorem uptimeSuccess_eq_claim (l : LogRecord) :
    uptimeSuccess l = l.http_status.any (fun s => decide (s < 400)) := by
  cases h : l.http_status <;> simp [uptimeSuccess, h, Option.any]

/-- The claim-side success predicate of the DNS rate agrees with the code's. -/
theorem dnsSuccess_eq_claim (l : LogRecord) :
    dnsSuccess l =
      decide (l.dns_resolved = .boolVal true ∨ l.dns_resolved = .numVal 1) := by
  cases h : l.dns_resolved with
  | boolVal b => simp [dnsSuccess, h]
  | numVal q => by_cases hq : q = 1 <;> simp [dnsSuccess, h, hq]
  | nullVal => simp [dnsSuccess, h]

/-- C6: `calcUptime` is null exactly on the empty list and otherwise is the
rounded percentage of records with a present status strictly below 400
over all records; 399 is a success, 400 and an absent status are not. -/
theorem calcUptime_spec :
    (∀ logs : List LogRecord, calcUptime logs = none ↔ logs = []) ∧
    (∀ logs : List LogRecord, logs ≠ [] →
      calcUptime logs =
        some (jsRound ((((logs.countP fun l => l.http_status.any fun s => decide (s < 400)) : ℚ) /
          (logs.length : ℚ)) * 100))) ∧
    (∀ l : LogRecord, uptimeSuccess l = true ↔ ∃ s, l.http_status = some s ∧ s < 400) ∧
    (∀ l : LogRecord, l.http_status = some 399 → uptimeSuccess l = true) ∧
    (∀ l : LogRecord, l.http_status = some 400 → uptimeSuccess l = false) ∧
    (∀ l : LogRecord, l.http_status = none → uptimeSuccess l = false) := by
  refine ⟨?_, ?_, ?_, ?_, ?_, ?_⟩
  · intro logs
    by_cases h : logs.length = 0
    · simp [calcUptime, h, List.length_eq_zero.mp h]
    · simp only [calcUptime, if_neg h]
      constructor
      · intro hc; exact absurd hc (by simp)
      · intro hc; exact absurd (congrArg List.length hc) (by simpa using h)
  · intro logs hne
    have h : ¬ logs.length = 0 := by simpa [List.length_eq_zero] using hne
    simp only [calcUptime, if_neg h]
    have hc : (logs.filter uptimeSuccess).length =
        logs.countP fun l => l.http_status.any fun s => decide (s < 400) := by
      rw [← List.countP_eq_length_filter]
      exact List.countP_congr fun l _ => by rw [uptimeSuccess_eq_claim]
    rw [hc]
  · intro l; cases h : l.http_status <;> simp [uptimeSuccess, h]
  · intro l h; simp [uptimeSuccess, h]
  · intro l h; simp [uptimeSuccess, h]
  · intro l h; simp [uptimeSuccess, h]

/-- C6 witness: concrete two-record evaluation through the main theorem. -/
theorem calcUptime_spec_witness :
    calcUptime [rec399, rec400] =
      some (jsRound (((([rec399, rec400].countP fun l =>
          l.http_status.any fun s => decide (s < 400)) : ℚ) /
        (([rec399, rec400] : List LogRecord).length : ℚ)) * 100)) :=
  calcUptime_spec.2.1 [rec399, rec400] (by decide)

/-- C7: `calcDnsSuccessRate` is null exactly on the empty list and otherwise
is the one-decimal percentage of records whose `dns_resolved` is boolean
true or the number 1, over all records (absent counts as failure). -/
theorem calcDnsSuccessRate_spec :
    (∀ logs : List LogRecord, calcDnsSuccessRate logs = none ↔ logs = []) ∧
    (∀ logs : List LogRecord, logs ≠ [] →
      calcDnsSuccessRate logs =
        some (toFixedNumber
          ((((logs.countP fun l =>
              decide (l.dns_resolved = .boolVal true ∨ l.dns_resolved = .numVal 1)) : ℚ) /
            (logs.length : ℚ)) * 100) 1)) ∧
    (∀ l : LogRecord, dnsSuccess l = true ↔
      (l.dns_resolved = .boolVal true ∨ l.dns_resolved = .numVal 1)) := by
  refine ⟨?_, ?_, ?_⟩
  · intro logs
    by_cases h : logs.length = 0
    · simp [calcDnsSuccessRate, h, List.length_eq_zero.mp h]
    · simp only [calcDnsSuccessRate, if_neg h]
      constructor
      · intro hc; exact absurd hc (by simp)
      · intro hc; exact absurd (congrArg List.length hc) (by simpa using h)
  · intro logs hne
    have h : ¬ logs.length = 0 := by simpa [List.length_eq_zero] using hne
    simp only [calcDnsSuccessRate, if_neg h]
    have hc : (logs.filter dnsSuccess).length =
        logs.countP fun l =>
          decide (l.dns_resolved = .boolVal true ∨ l.dns_resolved = .numVal 1) := by
      rw [← List.countP_eq_length_filter]
      exact List.countP_congr fun l _ => by rw [dnsSuccess_eq_claim]
    rw [hc]
  · intro l; cases h : l.dns_resolved <;> simp [dnsSuccess, h]

/-- C7 witness: concrete three-record evaluation through the main theorem. -/
theorem calcDnsSuccessRate_spec_witness :
    calcDnsSuccessRate [rec399, rec400, recNoStatus] =
      some (toFixedNumber
        (((([rec399, rec400, recNoStatus].countP fun l =>
            decide (l.dns_resolved = .boolVal true ∨ l.dns_resolved = .numVal 1)) : ℚ) /
          (([rec399, rec400, recNoStatus] : List LogRecord).length : ℚ)) * 100) 1) :=
  calcDnsSuccessRate_spec.2.1 [rec399, rec400, recNoStatus] (by decide)

theorem foldl_addTrafficLight (bs : List AggregatedBucket) :
    ∀ acc : TrafficLightAggregate,
      bs.foldl (fun a b => addTrafficLight a b.traffic_light) acc =
        ⟨acc.green + (bs.map fun b => b.traffic_light.green).sum,
         acc.orange + (bs.map fun b => b.traffic_light.orange).sum,
         acc.red + (bs.map fun b => b.traffic_light.red).sum⟩ := by
  induction bs with
  | nil => intro acc; simp
  | cons b bs ih =>
    intro acc
    rw [List.foldl_cons, ih]
    simp only [addTrafficLight, TrafficLightAggregate.mk.injEq, List.map_cons, List.sum_cons]
    omega

/-- C8: merging traffic-light tallies is the element-wise sum, is invariant
under permutation of the buckets, and the binary merge is associative and
commutative with the zero aggregate as identity. -/
theorem mergeTrafficLightAggregates_spec :
    (∀ bs : List AggregatedBucket,
      mergeTrafficLightAggregates bs =
        ⟨(bs.map fun b => b.traffic_light.green).sum,
         (bs.map fun b => b.traffic_light.orange).sum,
         (bs.map fun b => b.traffic_light.red).sum⟩) ∧
    (∀ bs cs : List AggregatedBucket, bs.Perm cs →
      mergeTrafficLightAggregates bs = mergeTrafficLightAggregates cs) ∧
    (∀ a b c : TrafficLightAggregate,
      addTrafficLight (addTrafficLight a b) c = addTrafficLight a (addTrafficLight b c)) ∧
    (∀ a b : TrafficLightAggregate, addTrafficLight a b = addTrafficLight b a) ∧
    (∀ a : TrafficLightAggregate,
      addTrafficLight zeroTrafficLight a = a ∧ addTrafficLight a zeroTrafficLight = a) := by
  have hmerge : ∀ bs : List AggregatedBucket,
      mergeTrafficLightAggregates bs =
        ⟨(bs.map fun b => b.traffic_light.green).sum,
         (bs.map fun b => b.traffic_light.orange).sum,
         (bs.map fun b => b.traffic_light.red).sum⟩ := by
    intro bs
    rw [mergeTrafficLightAggregates, foldl_addTrafficLight]
    simp [zeroTrafficLight]
  refine ⟨hmerge, ?_, ?_, ?_, ?_⟩
  · intro bs cs hp
    rw [hmerge, hmerge]
    simp [(hp.map fun b => b.traffic_light.green).sum_eq,
      (hp.map fun b => b.traffic_light.orange).sum_eq,
      (hp.map fun b => b.traffic_light.red).sum_eq]
  · intro a b c
    simp only [addTrafficLight, TrafficLightAggregate.mk.injEq]
    omega
  · intro a b
    simp only [addTrafficLight, TrafficLightAggregate.mk.injEq]
    omega
  · intro a
    cases a
    simp [addTrafficLight, zeroTrafficLight]

/-- C8 witness: swapping two concrete buckets leaves the merge unchanged. -/
theorem mergeTrafficLightAggregates_spec_witness :
    mergeTrafficLightAggregates [bucketA, bucketB] =
      mergeTrafficLightAggregates [bucketB, bucketA] :=
  mergeTrafficLightAggregates_spec.2.1 [bucketA, bucketB] [bucketB, bucketA]
    (List.Perm.swap bucketB bucketA [])

theorem summarizeTotals_foldl (bs : List AggregatedBucket) :
    ∀ acc : SummarizeTotals,
      bs.foldl summarizeStep acc =
        ⟨acc.count + totalCount bs,
         acc.latency + weightedSum bs (fun b => b.latency_avg),
         acc.ping + weightedSum bs (fun b => b.ping_avg),
         acc.ssl + weightedSum bs (fun b => b.ssl_days_left_avg),
         acc.dns + weightedSum bs (fun b => b.dns_success_rate),
         ⟨acc.traffic.green + (bs.map fun b => b.traffic_light.green).sum,
          acc.traffic.orange + (bs.map fun b => b.traffic_light.orange).sum,
          acc.traffic.red + (bs.map fun b => b.traffic_light.red).sum⟩⟩ := by
  induction bs with
  | nil => intro acc; simp [totalCount, weightedSum]
  | cons b bs ih =>
    intro acc
    rw [List.foldl_cons, ih]
    simp only [summarizeStep, addTrafficLight, totalCount, weightedSum, List.map_cons,
      List.sum_cons, SummarizeTotals.mk.injEq, TrafficLightAggregate.mk.injEq]
    refine ⟨?_, ?_, ?_, ?_, ?_, ?_, ?_, ?_⟩ <;> ring

/-- C3 (amended): when the total count is nonzero every metric is the
count-weighted mean over `max 1 totalCount`, rounded to 2 decimals, and the
output traffic-light tally is the element-wise sum; when the total count is
0 every metric is null; and the traffic-light counts are all 0 when the
total count is 0 provided each bucket's tallies sum to at most its count
(the documented bucket invariant). -/
theorem summarizeAggregatedBuckets_spec :
    (∀ bs : List AggregatedBucket, totalCount bs ≠ 0 →
      summarizeAggregatedBuckets bs =
        { latency_avg := some (toFixedNumber
            (weightedSum bs (fun b => b.latency_avg) / ((max 1 (totalCount bs) : ℕ) : ℚ)) 2)
          ping_avg := some (toFixedNumber
            (weightedSum bs (fun b => b.ping_avg) / ((max 1 (totalCount bs) : ℕ) : ℚ)) 2)
          ssl_days_left_avg := some (toFixedNumber
            (weightedSum bs (fun b => b.ssl_days_left_avg) / ((max 1 (totalCount bs) : ℕ) : ℚ)) 2)
          dns_success_rate := some (toFixedNumber
            (weightedSum bs (fun b => b.dns_success_rate) / ((max 1 (totalCount bs) : ℕ) : ℚ)) 2)
          traffic_light := ⟨(bs.map fun b => b.traffic_light.green).sum,
            (bs.map fun b => b.traffic_light.orange).sum,
            (bs.map fun b => b.traffic_light.red).sum⟩ }) ∧
    (∀ bs : List AggregatedBucket, totalCount bs = 0 →
      (summarizeAggregatedBuckets bs).latency_avg = none ∧
      (summarizeAggregatedBuckets bs).ping_avg = none ∧
      (summarizeAggregatedBuckets bs).ssl_days_left_avg = none ∧
      (summarizeAggregatedBuckets bs).dns_success_rate = none) ∧
    (∀ bs : List AggregatedBucket, totalCount bs = 0 →
      (∀ b ∈ bs, b.traffic_light.green + b.traffic_light.orange + b.traffic_light.red ≤ b.count) →
      (summarizeAggregatedBuckets bs).traffic_light = ⟨0, 0, 0⟩) := by
  refine ⟨?_, ?_, ?_⟩
  · intro bs h0
    have hne : ¬ bs.length = 0 := by
      intro hl
      exact h0 (by rw [List.length_eq_zero.mp hl]; rfl)
    simp only [summarizeAggregatedBuckets]
    rw [if_neg hne, summarizeTotals_foldl]
    simp [h0]
  · intro bs h0
    by_cases hb : bs.length = 0
    · simp [summarizeAggregatedBuckets, hb]
    · simp only [summarizeAggregatedBuckets]
      rw [if_neg hb, summarizeTotals_foldl]
      simp [h0]
  · intro bs h0 hinv
    by_cases hb : bs.length = 0
    · simp [summarizeAggregatedBuckets, hb]
    · have hcount : ∀ b ∈ bs, b.count = 0 := by
        intro b hbmem
        exact List.sum_eq_zero_iff.mp h0 _ (List.mem_map_of_mem _ hbmem)
      have hg : (bs.map fun b => b.traffic_light.green).sum = 0 := by
        apply List.sum_eq_zero
        intro x hx
        obtain ⟨b, hbmem, rfl⟩ := List.mem_map.mp hx
        have h1 := hinv b hbmem
        have h2 := hcount b hbmem
        omega
      have ho : (bs.map fun b => b.traffic_light.orange).sum = 0 := by
        apply List.sum_eq_zero
        intro x hx
        obtain ⟨b, hbmem, rfl⟩ := List.mem_map.mp hx
        have h1 := hinv b hbmem
        have h2 := hcount b hbmem
        omega
      have hr : (bs.map fun b => b.traffic_light.red).sum = 0 := by
        apply List.sum_eq_zero
        intro x hx
        obtain ⟨b, hbmem, rfl⟩ := List.mem_map.mp hx
        have h1 := hinv b hbmem
        have h2 := hcount b hbmem
        omega
      simp only [summarizeAggregatedBuckets]
      rw [if_neg hb, summarizeTotals_foldl]
      simp [hg, ho, hr]

/-- C3 counterexample: a bucket list with total count 0 whose summary does
not have all-zero traffic-light counts, refuting the claim as stated. -/
theorem summarizeAggregatedBuckets_counterexample :
    totalCount [zeroCountBucket] = 0 ∧
    (summarizeAggregatedBuckets [zeroCountBucket]).traffic_light = ⟨1, 0, 0⟩ ∧
    ¬ (summarizeAggregatedBuckets [zeroCountBucket]).traffic_light = ⟨0, 0, 0⟩ := by
  refine ⟨rfl, ?_, ?_⟩ <;> decide

/-- C3 witness: the count-weighted formula evaluated on two concrete
buckets through the main theorem. -/
theorem summarizeAggregatedBuckets_spec_witness :
    summarizeAggregatedBuckets [bucketA, bucketB] =
      { latency_avg := some (toFixedNumber
          (weightedSum [bucketA, bucketB] (fun b => b.latency_avg) /
            ((max 1 (totalCount [bucketA, bucketB]) : ℕ) : ℚ)) 2)
        ping_avg := some (toFixedNumber
          (weightedSum [bucketA, bucketB] (fun b => b.ping_avg) /
            ((max 1 (totalCount [bucketA, bucketB]) : ℕ) : ℚ)) 2)
        ssl_days_left_avg := some (toFixedNumber
          (weightedSum [bucketA, bucketB] (fun b => b.ssl_days_left_avg) /
            ((max 1 (totalCount [bucketA, bucketB]) : ℕ) : ℚ)) 2)
        dns_success_rate := some (toFixedNumber
          (weightedSum [bucketA, bucketB] (fun b => b.dns_success_rate) /
            ((max 1 (totalCount [bucketA, bucketB]) : ℕ) : ℚ)) 2)
        traffic_light := ⟨([bucketA, bucketB].map fun b => b.traffic_light.green).sum,
          ([bucketA, bucketB].map fun b => b.traffic_light.orange).sum,
          ([bucketA, bucketB].map fun b => b.traffic_light.red).sum⟩ } :=
  summarizeAggregatedBuckets_spec.1 [bucketA, bucketB] (by decide)

theorem chunksOf_nil (k : ℕ) : chunksOf k [] = [] := by
  rw [chunksOf]

theorem chunksOf_length_le : ∀ (M k : ℕ) (l : List LogRecord), 1 ≤ k → l.length ≤ M * k →
    (chunksOf k l).length ≤ M := by
  intro M
  induction M with
  | zero =>
    intro k l hk hl
    have hnil : l = [] := List.eq_nil_of_length_eq_zero (by omega)
    subst hnil
    simp [chunksOf_nil]
  | succ M ih =>
    intro k l hk hl
    match l with
    | [] => simp [chunksOf_nil]
    | a :: as =>
      rw [chunksOf]
      simp only [List.length_cons]
      have hdrop : (as.drop (k - 1)).length = as.length - (k - 1) := List.length_drop _ _
      have hmul : (M + 1) * k = M * k + k := Nat.succ_mul M k
      have hlen : (as.drop (k - 1)).length ≤ M * k := by
        simp only [List.length_cons] at hl
        rw [hmul] at hl
        obtain ⟨x, hx⟩ : ∃ x, M * k = x := ⟨M * k, rfl⟩
        rw [hx] at hl ⊢
        omega
      have := ih k (as.drop (k - 1)) hk hlen
      omega

theorem chunksOf_one : ∀ l : List LogRecord, chunksOf 1 l = l.map (fun a => [a]) := by
  intro l
  induction l with
  | nil => simp [chunksOf_nil]
  | cons a as ih =>
    rw [chunksOf]
    simp [ih]

theorem le_mul_ceil (N M : ℕ) (hM : 1 ≤ M) (hN : 1 ≤ N) :
    N ≤ M * max 1 ((N + M - 1) / M) := by
  have hq : 1 ≤ (N + M - 1) / M := (Nat.one_le_div_iff (by omega)).mpr (by omega)
  rw [max_eq_right hq]
  have hmod := Nat.div_add_mod (N + M - 1) M
  have hlt : (N + M - 1) % M < M := Nat.mod_lt _ (by omega)
  obtain ⟨x, hx⟩ : ∃ x, M * ((N + M - 1) / M) = x := ⟨_, rfl⟩
  rw [hx] at hmod ⊢
  omega

theorem ceil_eq_one (N M : ℕ) (h1 : 1 ≤ N) (h2 : N ≤ M) : (N + M - 1) / M = 1 := by
  apply Nat.div_eq_of_lt_le
  · omega
  · omega

/-- C2: `buildTimeseries` filters to the records with a present field
value, partitions those into consecutive groups of
`max 1 (ceil (N / maxPoints))`, and emits per group the 2-decimal mean
timestamped at the group's last record; the output has at most `maxPoints`
points, and with `maxPoints ≥ N` it is exactly one point per filtered
sample, in unchanged order. -/
theorem buildTimeseries_spec (logs : List LogRecord) (f : NumField) (M : ℕ) (hM : 1 ≤ M) :
    buildTimeseries logs f M =
      (chunksOf (max 1 (((filteredSamples logs f).length + M - 1) / M))
        (filteredSamples logs f)).map (bucketPoint f) ∧
    (buildTimeseries logs f M).length ≤ M ∧
    ((filteredSamples logs f).length ≤ M →
      buildTimeseries logs f M =
        (filteredSamples logs f).map
          (fun l => ⟨l.timestamp, toFixedNumber ((l.numField f).getD 0) 2, l⟩)) := by
  refine ⟨?_, ?_, ?_⟩
  · by_cases h : (filteredSamples logs f).length = 0
    · rw [List.length_eq_zero.mp h]
      simp [buildTimeseries, List.length_eq_zero.mp h, chunksOf_nil]
    · simp [buildTimeseries, h]
  · by_cases h : (filteredSamples logs f).length = 0
    · simp [buildTimeseries, h]
    · simp only [buildTimeseries, if_neg h, List.length_map]
      apply chunksOf_length_le
      · exact le_max_left 1 _
      · exact le_mul_ceil _ M hM (by omega)
  · intro hle
    by_cases h : (filteredSamples logs f).length = 0
    · rw [List.length_eq_zero.mp h]
      simp [buildTimeseries, List.length_eq_zero.mp h]
    · have hdiv : ((filteredSamples logs f).length + M - 1) / M = 1 :=
        ceil_eq_one _ M (by omega) hle
      simp only [buildTimeseries, if_neg h, hdiv, max_self]
      rw [chunksOf_one, List.map_map]
      apply List.map_congr_left
      intro a _
      simp [bucketPoint, Function.comp, List.getLastD]

/-- C2 witness: the point-count bound evaluated on two concrete records
through the main theorem. -/
theorem buildTimeseries_spec_witness :
    (buildTimeseries [rec399, rec400] .latency_ms 3).length ≤ 3 :=
  (buildTimeseries_spec [rec399, rec400] .latency_ms 3 (by decide)).2.1

/-- C9 counterexample: the numeric input 0 lies outside [1, 3600] but is
rejected (the validation-failure path), not clamped — clamping would have
stored 1. -/
theorem normalizePingInterval_counterexample :
    normalizePingInterval (some 0) = none ∧
    min MAX_PING_INTERVAL (max MIN_PING_INTERVAL (jsRound 0)) = 1 := by
  constructor
  · decide
  · norm_num [jsRound, MIN_PING_INTERVAL, MAX_PING_INTERVAL]

/-- C9 (amended): every accepted interval is an integer in
[MIN_PING_INTERVAL, MAX_PING_INTERVAL]; positive numeric input is rounded
and clamped into that range (so only too-large input is clamped);
non-positive or non-numeric input is rejected (the validation-failure
path); and the constants are 1, 3600 and the default 30. -/
theorem normalizePingInterval_spec :
    (∀ (q : ℚ) (r : ℤ), normalizePingInterval (some q) = some r →
      MIN_PING_INTERVAL ≤ r ∧ r ≤ MAX_PING_INTERVAL) ∧
    (∀ q : ℚ, 0 < q →
      normalizePingInterval (some q) =
        some (min MAX_PING_INTERVAL (max MIN_PING_INTERVAL (jsRound q)))) ∧
    (∀ q : ℚ, q ≤ 0 → normalizePingInterval (some q) = none) ∧
    normalizePingInterval none = none ∧
    DEFAULT_PING_INTERVAL = 30 ∧ MIN_PING_INTERVAL = 1 ∧ MAX_PING_INTERVAL = 3600 := by
  refine ⟨?_, ?_, ?_, rfl, rfl, rfl, rfl⟩
  · intro q r h
    simp only [normalizePingInterval] at h
    by_cases hq : q ≤ 0
    · rw [if_pos hq] at h
      exact absurd h (by simp)
    · rw [if_neg hq] at h
      obtain rfl : min MAX_PING_INTERVAL (max MIN_PING_INTERVAL (jsRound q)) = r :=
        Option.some_injective _ h
      constructor
      · exact le_min (by decide) (le_max_left _ _)
      · exact min_le_left _ _
  · intro q hq
    simp [normalizePingInterval, not_le.mpr hq]
  · intro q hq
    simp [normalizePingInterval, hq]

/-- C9 witness: the over-range input 5000 is accepted and clamped through
the main theorem. -/
theorem normalizePingInterval_spec_witness :
    normalizePingInterval (some 5000) =
      some (min MAX_PING_INTERVAL (max MIN_PING_INTERVAL (jsRound 5000))) :=
  normalizePingInterval_spec.2.1 5000 (by norm_num)

theorem noTimerFor_filter (id : String) (p : String × PendingSync → Bool) (ts : SyncTimers)
    (h : noTimerFor id ts) : noTimerFor id (ts.filter p) :=
  fun e he => h e (List.mem_filter.mp he).1

theorem noTimerFor_append {id : String} {ts1 ts2 : SyncTimers}
    (h1 : noTimerFor id ts1) (h2 : noTimerFor id ts2) : noTimerFor id (ts1 ++ ts2) := by
  intro e he
  rcases List.mem_append.mp he with h | h
  exacts [h1 e h, h2 e h]

theorem lookupTimer_none_of_noTimerFor {id : String} {ts : SyncTimers}
    (h : noTimerFor id ts) : lookupTimer ts id = none := by
  unfold lookupTimer
  have hfind : ts.find? (fun e => e.1 == id) = none := by
    rw [List.find?_eq_none]
    intro e he
    simp only [beq_iff_eq]
    exact (h e he).1
  rw [hfind]
  rfl

theorem lookupTimer_cancel (id : String) (ts : SyncTimers) :
    lookupTimer (cancelWebsiteSyncTimer id ts) id = none := by
  unfold lookupTimer cancelWebsiteSyncTimer
  have hfind : (ts.filter fun e => e.1 ≠ id).find? (fun e => e.1 == id) = none := by
    rw [List.find?_eq_none]
    intro e he
    have h2 := (List.mem_filter.mp he).2
    simp only [beq_iff_eq]
    exact of_decide_eq_true h2
  rw [hfind]
  rfl

theorem singleTimerFor_set {id : String} {d : ℕ} {un : FlowNode} {ts : SyncTimers}
    (hun : un.id = id) (h : noTimerFor id (cancelWebsiteSyncTimer id ts)) :
    singleTimerFor id d un (setWebsiteSyncTimer id ⟨d, un⟩ ts) :=
  ⟨hun, cancelWebsiteSyncTimer id ts, [], rfl, h, fun e he => absurd he (List.not_mem_nil e)⟩

theorem cancel_noTimerFor {id : String} {ts : SyncTimers}
    (h : ∀ e ∈ ts, e.2.node.id = id → e.1 = id) :
    noTimerFor id (cancelWebsiteSyncTimer id ts) := by
  intro e he
  have hm := List.mem_filter.mp he
  have hkey : e.1 ≠ id := of_decide_eq_true hm.2
  exact ⟨hkey, fun hnode => hkey (h e hm.1 hnode)⟩

theorem cancel_noTimerFor_of_noTimerFor {id : String} {ts : SyncTimers}
    (h : noTimerFor id ts) : noTimerFor id (cancelWebsiteSyncTimer id ts) :=
  cancel_noTimerFor fun e he hnode => absurd hnode (h e he).2

theorem cancel_noTimerFor_of_single {id : String} {d : ℕ} {un : FlowNode} {ts : SyncTimers}
    (h : singleTimerFor id d un ts) : noTimerFor id (cancelWebsiteSyncTimer id ts) := by
  obtain ⟨hun, pre, post, rfl, hpre, hpost⟩ := h
  apply cancel_noTimerFor
  intro e he hnode
  rcases List.mem_append.mp he with hm | hm
  · exact absurd hnode (hpre e hm).2
  · rcases List.mem_cons.mp hm with rfl | hm2
    · rfl
    · exact absurd hnode (hpost e hm2).2

theorem find?_key_append {id : String} {v : PendingSync} (post : SyncTimers) :
    ∀ pre : SyncTimers, (∀ e ∈ pre, e.1 ≠ id) →
      (pre ++ (id, v) :: post).find? (fun e => e.1 == id) = some (id, v) := by
  intro pre
  induction pre with
  | nil =>
    intro _
    rw [List.nil_append]
    exact List.find?_cons_of_pos post (by simp)
  | cons a as ih =>
    intro hpre
    rw [List.cons_append, List.find?_cons_of_neg]
    · exact ih fun e he => hpre e (List.mem_cons_of_mem a he)
    · simp only [beq_iff_eq]
      exact fun hc => hpre a (List.mem_cons_self a as) hc

theorem lookupTimer_single {id : String} {d : ℕ} {un : FlowNode} {ts : SyncTimers}
    (h : singleTimerFor id d un ts) : lookupTimer ts id = some ⟨d, un⟩ := by
  obtain ⟨hun, pre, post, rfl, hpre, hpost⟩ := h
  unfold lookupTimer
  rw [find?_key_append post pre fun e he => (hpre e he).1]
  rfl

theorem singleTimerFor_keyCount {id : String} {d : ℕ} {un : FlowNode} {ts : SyncTimers}
    (h : singleTimerFor id d un ts) : (ts.filter (fun e => e.1 = id)).length = 1 := by
  obtain ⟨hun, pre, post, rfl, hpre, hpost⟩ := h
  rw [List.filter_append, List.filter_cons]
  have h1 : pre.filter (fun e => e.1 = id) = [] :=
    List.filter_eq_nil_iff.mpr fun e he => by simp [(hpre e he).1]
  have h2 : post.filter (fun e => e.1 = id) = [] :=
    List.filter_eq_nil_iff.mpr fun e he => by simp [(hpost e he).1]
  simp [h1, h2]

theorem filterNodes_map_eq_nil {id : String} {ts : SyncTimers}
    (h : ∀ e ∈ ts, e.2.node.id ≠ id) :
    (ts.map (fun e => e.2.node)).filter (fun n => n.id = id) = [] := by
  rw [List.filter_eq_nil_iff]
  intro n hn
  obtain ⟨e, he, rfl⟩ := List.mem_map.mp hn
  simp only [decide_eq_true_eq]
  exact h e he

/-- C5: whatever the backend delete returns — success, not-found, or a
transport error — `deleteSiteNode` removes the node locally, cancels its
pending debounce timer, leaves the write log untouched, and ends in the
very same state as a successful delete (a not-found answer is treated as
success; the store exposes no error field to block on). -/
theorem deleteSiteNode_spec (outcome : DeleteOutcome) (nodeId : String) (s : StoreState) :
    (deleteSiteNode outcome nodeId s).1.nodes = s.nodes.filter (fun n => n.id ≠ nodeId) ∧
    lookupTimer (deleteSiteNode outcome nodeId s).1.websiteSyncTimers nodeId = none ∧
    (deleteSiteNode outcome nodeId s).1 = (deleteSiteNode DeleteOutcome.success nodeId s).1 ∧
    (deleteSiteNode outcome nodeId s).1.syncLog = s.syncLog :=
  ⟨rfl, lookupTimer_cancel nodeId s.websiteSyncTimers, rfl, rfl⟩

theorem filter_map_update (id : String) (p : NodePatch) (nodes : List FlowNode) :
    (nodes.map (fun n => if n.id = id then { n with data := updateNodeFn n.type n.data p } else n)).filter
        (fun n => n.id = id) =
      (nodes.filter (fun n => n.id = id)).map
        (fun n => { n with data := updateNodeFn n.type n.data p }) := by
  rw [List.filter_map]
  have hfil : nodes.filter
        ((fun n => (decide (n.id = id) : Bool)) ∘
          (fun n => if n.id = id then { n with data := updateNodeFn n.type n.data p } else n)) =
      nodes.filter (fun n => n.id = id) := by
    apply List.filter_congr
    intro a _
    by_cases h : a.id = id <;> simp [Function.comp, h]
  rw [hfil]
  apply List.map_congr_left
  intro a ha
  have h := of_decide_eq_true (List.mem_filter.mp ha).2
  simp [h]

theorem updateNodeData_step (t : ℕ) (id : String) (p : NodePatch) (s : StoreState)
    (hweb : ∀ n ∈ s.nodes, n.id = id → n.type = "website")
    (hex : s.nodes.filter (fun n => n.id = id) ≠ [])
    (htouch : touchesSyncedField p = true) :
    ∃ un : FlowNode,
      un.id = id ∧
      ((updateNodeData t id p s).nodes.filter (fun n => n.id = id)).getLast? = some un ∧
      (updateNodeData t id p s).websiteSyncTimers =
        setWebsiteSyncTimer id ⟨t + 500, un⟩ s.websiteSyncTimers ∧
      (updateNodeData t id p s).syncLog = s.syncLog ∧
      (updateNodeData t id p s).nodes.filter (fun n => n.id = id) ≠ [] ∧
      (∀ n ∈ (updateNodeData t id p s).nodes, n.id = id → n.type = "website") := by
  obtain ⟨n0, hn0⟩ := Option.isSome_iff_exists.mp (List.getLast?_isSome.mpr hex)
  have hn0mem := mem_of_getLast?_eq hn0
  have hn0id : n0.id = id := of_decide_eq_true (List.mem_filter.mp hn0mem).2
  have hn0web : n0.type = "website" := hweb n0 (List.mem_filter.mp hn0mem).1 hn0id
  have hunid : ({ n0 with data := updateNodeFn n0.type n0.data p } : FlowNode).id = id := hn0id
  have hupd : updateNodeData t id p s =
      { s with
        nodes := s.nodes.map
          (fun n => if n.id = id then { n with data := updateNodeFn n.type n.data p } else n),
        isDirty := true,
        websiteSyncTimers :=
          setWebsiteSyncTimer id
            ⟨t + 500, { n0 with data := updateNodeFn n0.type n0.data p }⟩
            s.websiteSyncTimers } := by
    unfold updateNodeData
    rw [hn0]
    simp only [Option.map_some']
    rw [if_pos ⟨hn0web, htouch⟩]
    rw [hunid]
  refine ⟨{ n0 with data := updateNodeFn n0.type n0.data p }, hunid, ?_, ?_, ?_, ?_, ?_⟩
  · rw [hupd]
    show ((s.nodes.map _).filter _).getLast? = _
    rw [filter_map_update, List.getLast?_map, hn0, Option.map_some']
  · rw [hupd]
  · rw [hupd]
  · rw [hupd]
    show (s.nodes.map _).filter _ ≠ []
    rw [filter_map_update]
    simp only [ne_eq, List.map_eq_nil_iff]
    exact hex
  · rw [hupd]
    intro n hn hnid
    obtain ⟨m, hm, rfl⟩ := List.mem_map.mp hn
    by_cases hmid : m.id = id
    · have := hweb m hm hmid
      simp [hmid, updateNodeFn, this]
    · simp only [if_neg hmid] at hnid ⊢
      exact hweb m hm hnid

theorem fireDueTimers_noTimer (id : String) (t : ℕ) (s : StoreState)
    (h : noTimerFor id s.websiteSyncTimers) :
    (fireDueTimers t s).syncLog.filter (fun n => n.id = id) =
      s.syncLog.filter (fun n => n.id = id) ∧
    noTimerFor id (fireDueTimers t s).websiteSyncTimers ∧
    (fireDueTimers t s).nodes = s.nodes := by
  simp only [fireDueTimers]
  refine ⟨?_, noTimerFor_filter _ _ _ h, trivial⟩
  rw [List.filter_append,
    filterNodes_map_eq_nil fun e he => (h e (List.mem_filter.mp he).1).2,
    List.append_nil]

theorem fireDueTimers_single_notdue (id : String) (d : ℕ) (un : FlowNode) (t : ℕ)
    (s : StoreState) (h : singleTimerFor id d un s.websiteSyncTimers) (ht : t < d) :
    (fireDueTimers t s).syncLog.filter (fun n => n.id = id) =
      s.syncLog.filter (fun n => n.id = id) ∧
    singleTimerFor id d un (fireDueTimers t s).websiteSyncTimers ∧
    (fireDueTimers t s).nodes = s.nodes := by
  obtain ⟨hun, pre, post, hts, hpre, hpost⟩ := h
  have hd : ¬ (PendingSync.mk d un).fireAt ≤ t := by simp; omega
  have hdue_eq : (pre ++ (id, PendingSync.mk d un) :: post).filter (fun e => e.2.fireAt ≤ t) =
      pre.filter (fun e => e.2.fireAt ≤ t) ++ post.filter (fun e => e.2.fireAt ≤ t) := by
    rw [List.filter_append, List.filter_cons, if_neg (by simpa using hd)]
  have hrem_eq : (pre ++ (id, PendingSync.mk d un) :: post).filter
        (fun e => ¬ e.2.fireAt ≤ t) =
      pre.filter (fun e => ¬ e.2.fireAt ≤ t) ++
        (id, PendingSync.mk d un) :: post.filter (fun e => ¬ e.2.fireAt ≤ t) := by
    rw [List.filter_append, List.filter_cons, if_pos (by simpa using hd)]
  simp only [fireDueTimers, hts]
  refine ⟨?_, ?_, trivial⟩
  · rw [hdue_eq]
    have hdue : ∀ e ∈ (pre.filter (fun e => e.2.fireAt ≤ t)) ++
        post.filter (fun e => e.2.fireAt ≤ t), e.2.node.id ≠ id := by
      intro e he
      rcases List.mem_append.mp he with hm | hm
      · exact (hpre e (List.mem_filter.mp hm).1).2
      · exact (hpost e (List.mem_filter.mp hm).1).2
    rw [List.filter_append, filterNodes_map_eq_nil hdue, List.append_nil]
  · rw [hrem_eq]
    exact ⟨hun, pre.filter _, post.filter _, rfl,
      noTimerFor_filter _ _ _ hpre, noTimerFor_filter _ _ _ hpost⟩

theorem fireDueTimers_single_due (id : String) (d : ℕ) (un : FlowNode) (t : ℕ)
    (s : StoreState) (h : singleTimerFor id d un s.websiteSyncTimers) (ht : d ≤ t) :
    (fireDueTimers t s).syncLog.filter (fun n => n.id = id) =
      s.syncLog.filter (fun n => n.id = id) ++ [un] ∧
    noTimerFor id (fireDueTimers t s).websiteSyncTimers ∧
    lookupTimer (fireDueTimers t s).websiteSyncTimers id = none := by
  obtain ⟨hun, pre, post, hts, hpre, hpost⟩ := h
  have hd : (PendingSync.mk d un).fireAt ≤ t := ht
  have hremain : noTimerFor id ((pre.filter (fun e => ¬ e.2.fireAt ≤ t)) ++
      post.filter (fun e => ¬ e.2.fireAt ≤ t)) :=
    noTimerFor_append (noTimerFor_filter _ _ _ hpre) (noTimerFor_filter _ _ _ hpost)
  have hdue_eq : (pre ++ (id, PendingSync.mk d un) :: post).filter (fun e => e.2.fireAt ≤ t) =
      pre.filter (fun e => e.2.fireAt ≤ t) ++
        (id, PendingSync.mk d un) :: post.filter (fun e => e.2.fireAt ≤ t) := by
    rw [List.filter_append, List.filter_cons, if_pos (by simpa using hd)]
  have hrem_eq : (pre ++ (id, PendingSync.mk d un) :: post).filter
        (fun e => ¬ e.2.fireAt ≤ t) =
      pre.filter (fun e => ¬ e.2.fireAt ≤ t) ++ post.filter (fun e => ¬ e.2.fireAt ≤ t) := by
    rw [List.filter_append, List.filter_cons, if_neg (by simpa using hd)]
  simp only [fireDueTimers, hts]
  refine ⟨?_, ?_, ?_⟩
  · rw [hdue_eq]
    rw [List.filter_append]
    rw [List.map_append, List.map_cons, List.filter_append, List.filter_cons,
      if_pos (by simpa using hun)]
    rw [filterNodes_map_eq_nil fun e he => (hpre e (List.mem_filter.mp he).1).2,
      filterNodes_map_eq_nil fun e he => (hpost e (List.mem_filter.mp he).1).2]
    rw [List.nil_append]
  · rw [hrem_eq]
    exact hremain
  · rw [hrem_eq]
    exact lookupTimer_none_of_noTimerFor hremain

/-- C4: three edits to the same website node at times `t1, t2, t3`, each
inside the previous edit's 500 ms window, issue no write during the burst,
leave exactly one pending debounced write — deadline `t3 + 500`, carrying
the node state as of the last edit — and when that timer fires, exactly one
write for the node is issued, carrying exactly that state, after which no
write is pending for it. -/
theorem updateNodeData_debounce_spec
    (s : StoreState) (id : String) (p1 p2 p3 : NodePatch) (t1 t2 t3 : ℕ)
    (hclean : noTimerFor id s.websiteSyncTimers)
    (hweb : ∀ n ∈ s.nodes, n.id = id → n.type = "website")
    (hex : s.nodes.filter (fun n => n.id = id) ≠ [])
    (ht1 : touchesSyncedField p1 = true)
    (ht2 : touchesSyncedField p2 = true)
    (ht3 : touchesSyncedField p3 = true)
    (h12 : t2 < t1 + 500) (h23 : t3 < t2 + 500) :
    ((burst3 s id p1 p2 p3 t1 t2 t3).syncLog.filter (fun n => n.id = id) =
      s.syncLog.filter (fun n => n.id = id)) ∧
    (∃ un : FlowNode, un.id = id ∧
      lookupTimer (burst3 s id p1 p2 p3 t1 t2 t3).websiteSyncTimers id = some ⟨t3 + 500, un⟩ ∧
      ((burst3 s id p1 p2 p3 t1 t2 t3).nodes.filter (fun n => n.id = id)).getLast? = some un ∧
      (fireDueTimers (t3 + 500) (burst3 s id p1 p2 p3 t1 t2 t3)).syncLog.filter
          (fun n => n.id = id) =
        s.syncLog.filter (fun n => n.id = id) ++ [un]) ∧
    ((burst3 s id p1 p2 p3 t1 t2 t3).websiteSyncTimers.filter (fun e => e.1 = id)).length = 1 ∧
    lookupTimer (fireDueTimers (t3 + 500)
      (burst3 s id p1 p2 p3 t1 t2 t3)).websiteSyncTimers id = none := by
  -- edit 1: flush (nothing pending for this id), then update
  obtain ⟨hf1log, hf1none, hf1nodes⟩ := fireDueTimers_noTimer id t1 s hclean
  obtain ⟨un1, hun1id, hlast1, htimers1, hlog1, hex1, hweb1⟩ :=
    updateNodeData_step t1 id p1 (fireDueTimers t1 s)
      (by rw [hf1nodes]; exact hweb) (by rw [hf1nodes]; exact hex) ht1
  have hsingle1 : singleTimerFor id (t1 + 500) un1
      (processEdit s t1 id p1).websiteSyncTimers := by
    rw [show processEdit s t1 id p1 = updateNodeData t1 id p1 (fireDueTimers t1 s) from rfl,
      htimers1]
    exact singleTimerFor_set hun1id (cancel_noTimerFor_of_noTimerFor hf1none)
  have hlog1' : (processEdit s t1 id p1).syncLog.filter (fun n => n.id = id) =
      s.syncLog.filter (fun n => n.id = id) := by
    rw [show processEdit s t1 id p1 = updateNodeData t1 id p1 (fireDueTimers t1 s) from rfl,
      hlog1, hf1log]
  -- edit 2: the pending timer (deadline t1+500) is not yet due at t2
  obtain ⟨hf2log, hf2single, hf2nodes⟩ :=
    fireDueTimers_single_notdue id (t1 + 500) un1 t2 (processEdit s t1 id p1) hsingle1 h12
  obtain ⟨un2, hun2id, hlast2, htimers2, hlog2, hex2, hweb2⟩ :=
    updateNodeData_step t2 id p2 (fireDueTimers t2 (processEdit s t1 id p1))
      (by rw [hf2nodes]; exact hweb1) (by rw [hf2nodes]; exact hex1) ht2
  have hsingle2 : singleTimerFor id (t2 + 500) un2
      (processEdit (processEdit s t1 id p1) t2 id p2).websiteSyncTimers := by
    rw [show processEdit (processEdit s t1 id p1) t2 id p2 =
        updateNodeData t2 id p2 (fireDueTimers t2 (processEdit s t1 id p1)) from rfl,
      htimers2]
    exact singleTimerFor_set hun2id (cancel_noTimerFor_of_single hf2single)
  have hlog2' : (processEdit (processEdit s t1 id p1) t2 id p2).syncLog.filter
      (fun n => n.id = id) = s.syncLog.filter (fun n => n.id = id) := by
    rw [show processEdit (processEdit s t1 id p1) t2 id p2 =
        updateNodeData t2 id p2 (fireDueTimers t2 (processEdit s t1 id p1)) from rfl,
      hlog2, hf2log, hlog1']
  -- edit 3: the pending timer (deadline t2+500) is not yet due at t3
  obtain ⟨hf3log, hf3single, hf3nodes⟩ :=
    fireDueTimers_single_notdue id (t2 + 500) un2 t3
      (processEdit (processEdit s t1 id p1) t2 id p2) hsingle2 h23
  obtain ⟨un3, hun3id, hlast3, htimers3, hlog3, hex3, hweb3⟩ :=
    updateNodeData_step t3 id p3
      (fireDueTimers t3 (processEdit (processEdit s t1 id p1) t2 id p2))
      (by rw [hf3nodes]; exact hweb2) (by rw [hf3nodes]; exact hex2) ht3
  have hburst : burst3 s id p1 p2 p3 t1 t2 t3 =
      updateNodeData t3 id p3
        (fireDueTimers t3 (processEdit (processEdit s t1 id p1) t2 id p2)) := rfl
  have hsingle3 : singleTimerFor id (t3 + 500) un3
      (burst3 s id p1 p2 p3 t1 t2 t3).websiteSyncTimers := by
    rw [hburst, htimers3]
    exact singleTimerFor_set hun3id (cancel_noTimerFor_of_single hf3single)
  have hlog3' : (burst3 s id p1 p2 p3 t1 t2 t3).syncLog.filter (fun n => n.id = id) =
      s.syncLog.filter (fun n => n.id = id) := by
    rw [hburst, hlog3, hf3log, hlog2']
  -- the timer fires at t3 + 500
  obtain ⟨hfirelog, hfirenone, hfirelookup⟩ :=
    fireDueTimers_single_due id (t3 + 500) un3 (t3 + 500)
      (burst3 s id p1 p2 p3 t1 t2 t3) hsingle3 (le_refl _)
  refine ⟨hlog3', ⟨un3, hun3id, lookupTimer_single hsingle3, ?_, ?_⟩,
    singleTimerFor_keyCount hsingle3, hfirelookup⟩
  · rw [hburst]
    exact hlast3
  · rw [hfirelog, hlog3']

/-- C4 witness: a concrete three-edit burst at times 0, 100, 200 on the
sample store issues no write during the burst, through the main theorem. -/
theorem updateNodeData_debounce_spec_witness :
    (burst3 storeSample "1" patchTitle patchUrl patchInterval 0 100 200).syncLog.filter
        (fun n => n.id = "1") =
      storeSample.syncLog.filter (fun n => n.id = "1") :=
  (updateNodeData_debounce_spec storeSample "1" patchTitle patchUrl patchInterval 0 100 200
    (by unfold noTimerFor; decide) (by decide) (by decide) (by decide) (by decide)
    (by decide) (by decide) (by decide)).1

/-- C1: a response whose abort signal is set by arrival changes no view
state at all — neither data, nor errors, nor `lastUpdated`, nor the loading
flags — for both `fetchOverviewData` and `fetchSiteData`; `some true` is
exactly the aborted signal; and an auto-refresh tick runs those same two
fetch completions with no signal attached. -/
theorem fetch_cancellation_spec :
    (∀ (o1 : FetchOutcome AggregatedDashboardResponse)
       (o2 : FetchOutcome (AggregatedDashboardResponse × List LogRecord))
       (now : ℤ) (s : ViewState),
      fetchOverviewData (some true) o1 s = s ∧
      fetchSiteData (some true) o2 now s = s) ∧
    (∀ sig : Option Bool, signalAborted sig = true ↔ sig = some true) ∧
    (∀ (o1 : FetchOutcome AggregatedDashboardResponse)
       (o2 : FetchOutcome (AggregatedDashboardResponse × List LogRecord))
       (now : ℤ) (s : ViewState),
      autoRefreshTick o1 o2 now s =
        fetchSiteData none o2 now (fetchOverviewData none o1 s)) := by
  refine ⟨?_, ?_, fun _ _ _ _ => rfl⟩
  · intro o1 o2 now s
    constructor
    · cases o1 <;> rfl
    · cases o2 <;> rfl
  · intro sig
    cases sig with
    | none => simp [signalAborted]
    | some b => cases b <;> simp [signalAborted]

/-- C10: toggling a color that would empty the filter set resets it to the
full set; every toggle result is nonempty; and every filter state reachable
from the initial full set through toggles keeps at least one color. -/
theorem handleToggleTraffic_spec :
    (∀ (s : TrafficFilterSet) (c : TrafficLight),
      s.has c = true → (s.del c).size = 0 → handleToggleTraffic c s = fullTrafficFilter) ∧
    (∀ (s : TrafficFilterSet) (c : TrafficLight), 1 ≤ (handleToggleTraffic c s).size) ∧
    1 ≤ fullTrafficFilter.size ∧
    (∀ cs : List TrafficLight,
      1 ≤ (cs.foldl (fun s c => handleToggleTraffic c s) fullTrafficFilter).size) := by
  have h2 : ∀ (s : TrafficFilterSet) (c : TrafficLight),
      1 ≤ (handleToggleTraffic c s).size := by decide
  have haux : ∀ (cs : List TrafficLight) (s : TrafficFilterSet), 1 ≤ s.size →
      1 ≤ (cs.foldl (fun s c => handleToggleTraffic c s) s).size := by
    intro cs
    induction cs with
    | nil => intro s hs; simpa using hs
    | cons c cs ih => intro s hs; exact ih _ (h2 s c)
  exact ⟨by decide, h2, by decide, fun cs => haux cs fullTrafficFilter (by decide)⟩

/-- C10 witness: removing green from the set holding only green resets to
the full set, through the main theorem. -/
theorem handleToggleTraffic_spec_witness :
    handleToggleTraffic TrafficLight.green ⟨true, false, false⟩ = fullTrafficFilter :=
  handleToggleTraffic_spec.1 ⟨true, false, false⟩ TrafficLight.green (by decide) (by decide)

end PingTower
